import Mathlib

/-!
Verification development for the DewAI resilient generation gateway
(src/src-tauri/src/main.rs).  The Rust source is shallowly embedded:
the HTTP backend is abstracted as a function from the attempt number to
the observable response of that attempt, and the retry loops become
structurally recursive Lean functions producing a trace (attempt count,
backoff waits, emitted stream events, final outcome).
-/

/-! ## Saturating u64 arithmetic (Rust saturating_mul / saturating_pow) -/

def U64_MAX : Nat := 18446744073709551615

def satMul (x y : Nat) : Nat := min (x * y) U64_MAX

def satPow2 (e : Nat) : Nat := min (2 ^ e) U64_MAX

/-- Backoff delay in ms after the given (1-indexed) failed attempt:
`300u64.saturating_mul(2u64.saturating_pow((attempt - 1) as u32))`. -/
def backoffMs (attempt : Nat) : Nat := satMul 300 (satPow2 (attempt - 1))

/-! ## HTTP status (reqwest StatusCode: numeric code plus Display text) -/

structure Status where
  code : Nat
  display : String
deriving DecidableEq

/-- `StatusCode::is_success()`: 2xx. -/
def statusIsSuccess (st : Status) : Bool := 200 ≤ st.code && st.code < 300

/-! ## JSON values (serde_json::Value) -/

inductive Json where
  | null : Json
  | bool : Bool → Json
  | num : String → Json      -- number lexeme; never read as str/bool by the code
  | str : String → Json
  | arr : List Json → Json
  | obj : List (String × Json) → Json

/-- `v["k"]` for serde_json: field of an object (last duplicate wins, as with
map insertion at parse time), `Null` for anything else. -/
def Json.index (v : Json) (k : String) : Json :=
  match v with
  | .obj fs => ((fs.reverse).find? (fun p => p.1 == k)).elim Json.null (·.2)
  | _ => .null

/-- `Value::as_str()`. -/
def Json.asStr : Json → Option String
  | .str s => some s
  | _ => none

/-- `Value::as_bool()`. -/
def Json.asBool : Json → Option Bool
  | .bool b => some b
  | _ => none

/-! ## Model policy guard (main.rs lines 20-25) -/

def ALLOWED_MODEL_PREFIXES : List String := ["gemma3:1b", "gemma3:4b"]

def ERR_UNSUPPORTED_MODEL : String :=
  "サポートされていないモデルです。gemma3:1bまたはgemma3:4bを使用してください。"

/-- `fn is_allowed_model(model: &str) -> bool`:
`ALLOWED_MODEL_PREFIXES.iter().any(|p| model.starts_with(p))` — a
case-sensitive character-prefix test. -/
def is_allowed_model (model : String) : Bool :=
  ALLOWED_MODEL_PREFIXES.any (fun p => p.data.isPrefixOf model.data)

def MAX_RETRIES : Nat := 3

/-! ## Buffered transport (call_ollama_generate_with_timeout, lines 46-94)

One attempt observes either a send failure (`Err(e)` from `send().await`)
or a response carrying a status (printed but never branched on) and a body
that `res.json().await` either fails to produce (read/parse error) or
parses into a `Json` value. -/

inductive BodyKind where
  | parseFail : String → BodyKind   -- res.json() returned Err(e)
  | parsed : Json → BodyKind

inductive BufResp where
  | transportErr : String → BufResp -- send() returned Err(e)
  | ok : Status → BodyKind → BufResp

inductive BufOutcome where
  | success : String → BufOutcome
  | failure : String → BufOutcome
deriving DecidableEq

/-- Classification of one buffered attempt, mirroring the match on `resp`
in lines 67-86: a send error is retryable and, when retries are exhausted,
yields `リクエスト失敗: e`; a body that fails to parse propagates
immediately through `?` as `JSONパース失敗: e`; a parsed body with a string
`response` field succeeds; a parsed body without it is retryable and, when
retries are exhausted, yields the fixed message `応答なし`. -/
inductive BufClass where
  | success : String → BufClass
  | fatal : String → BufClass
  | retryable : String → BufClass

def classifyBuf : BufResp → BufClass
  | .transportErr e => .retryable ("リクエスト失敗: " ++ e)
  | .ok _ (.parseFail e) => .fatal ("JSONパース失敗: " ++ e)
  | .ok _ (.parsed j) =>
    match (j.index "response").asStr with
    | some s => .success s
    | none => .retryable "応答なし"

structure BufTrace where
  attempts : Nat
  backoffs : List Nat
  outcome : BufOutcome
deriving DecidableEq

/-- The retry loop of lines 58-93.  `a` is the current attempt number
(starting at 1); `rem` is the number of retries still permitted, i.e.
`MAX_RETRIES - a` (the code's `attempt >= MAX_RETRIES` test is `rem = 0`).
On a retryable failure with `rem = 0` the loop returns the exhausted
failure; otherwise it sleeps `backoffMs a` and retries. -/
def bufGo (backend : Nat → BufResp) (a : Nat) : Nat → BufTrace
  | 0 =>
    match classifyBuf (backend a) with
    | .success s => ⟨a, [], .success s⟩
    | .fatal m => ⟨a, [], .failure m⟩
    | .retryable m => ⟨a, [], .failure m⟩
  | rem + 1 =>
    match classifyBuf (backend a) with
    | .success s => ⟨a, [], .success s⟩
    | .fatal m => ⟨a, [], .failure m⟩
    | .retryable _ =>
      let t := bufGo backend (a + 1) rem
      ⟨t.attempts, backoffMs a :: t.backoffs, t.outcome⟩

/-- `call_ollama_generate_with_timeout` instrumented: the attempt counter
starts at 1 and the ceiling is `maxRetries`. -/
def call_ollama_generate_with_timeout (backend : Nat → BufResp) (maxRetries : Nat) : BufTrace :=
  bufGo backend 1 (maxRetries - 1)

/-! ## Gateway operations (buffered): model guard then engine -/

structure GatewayOut where
  netCalls : Nat
  result : BufOutcome
deriving DecidableEq

/-- `call_ollama_generate` (line 97): the default buffered call with
`MAX_RETRIES = 3`; `netCalls` counts HTTP attempts actually issued. -/
def call_ollama_generate (backend : Nat → BufResp) : GatewayOut :=
  let t := call_ollama_generate_with_timeout backend MAX_RETRIES
  ⟨t.attempts, t.outcome⟩

/-- `generate_text` (line 215): no model argument, fixed model gemma3:4b. -/
def generate_text (backend : Nat → BufResp) : GatewayOut :=
  call_ollama_generate backend

/-- `generate_text_with_model` (line 273). -/
def generate_text_with_model (backend : Nat → BufResp) (model : String) : GatewayOut :=
  if is_allowed_model model then call_ollama_generate backend
  else ⟨0, .failure ERR_UNSUPPORTED_MODEL⟩

/-- `generate_ai_response` (line 290); prompt construction is an external
pure collaborator and does not affect the trace. -/
def generate_ai_response (backend : Nat → BufResp) (model : String) : GatewayOut :=
  if is_allowed_model model then call_ollama_generate backend
  else ⟨0, .failure ERR_UNSUPPORTED_MODEL⟩

/-- `start_discussion` (line 328): takes no model, delegates to
`generate_text` with the fixed default model. -/
def start_discussion (backend : Nat → BufResp) : GatewayOut :=
  generate_text backend

/-- `analyze_discussion_points` (line 341). -/
def analyze_discussion_points (backend : Nat → BufResp) (model : String) : GatewayOut :=
  if is_allowed_model model then call_ollama_generate backend
  else ⟨0, .failure ERR_UNSUPPORTED_MODEL⟩

/-- `analyze_recent_discussion` (line 362). -/
def analyze_recent_discussion (backend : Nat → BufResp) (model : String) : GatewayOut :=
  if is_allowed_model model then call_ollama_generate backend
  else ⟨0, .failure ERR_UNSUPPORTED_MODEL⟩

/-- `summarize_discussion` (line 383). -/
def summarize_discussion (backend : Nat → BufResp) (model : String) : GatewayOut :=
  if is_allowed_model model then call_ollama_generate backend
  else ⟨0, .failure ERR_UNSUPPORTED_MODEL⟩

/-! ## NDJSON line parsing (serde_json::from_str on one trimmed line)

A small executable JSON parser sufficient for the wire contract; lines the
parser rejects are skipped by the framer exactly as serde parse errors are. -/

def skipWs : List Char → List Char
  | c :: cs => if c = ' ' ∨ c = '\t' ∨ c = '\n' ∨ c = '\r' then skipWs cs else c :: cs
  | [] => []

def hexVal (c : Char) : Option Nat :=
  if '0' ≤ c ∧ c ≤ '9' then some (c.toNat - 48)
  else if 'a' ≤ c ∧ c ≤ 'f' then some (c.toNat - 87)
  else if 'A' ≤ c ∧ c ≤ 'F' then some (c.toNat - 55)
  else none

/-- Body of a JSON string after the opening quote: returns the decoded
characters and the remainder after the closing quote. -/
def parseStringRest : List Char → Option (List Char × List Char)
  | [] => none
  | '"' :: rest => some ([], rest)
  | '\\' :: rest =>
    match rest with
    | '"' :: rs => (parseStringRest rs).map (fun p => ('"' :: p.1, p.2))
    | '\\' :: rs => (parseStringRest rs).map (fun p => ('\\' :: p.1, p.2))
    | '/' :: rs => (parseStringRest rs).map (fun p => ('/' :: p.1, p.2))
    | 'b' :: rs => (parseStringRest rs).map (fun p => ('\x08' :: p.1, p.2))
    | 'f' :: rs => (parseStringRest rs).map (fun p => ('\x0c' :: p.1, p.2))
    | 'n' :: rs => (parseStringRest rs).map (fun p => ('\n' :: p.1, p.2))
    | 'r' :: rs => (parseStringRest rs).map (fun p => ('\r' :: p.1, p.2))
    | 't' :: rs => (parseStringRest rs).map (fun p => ('\t' :: p.1, p.2))
    | 'u' :: h1 :: h2 :: h3 :: h4 :: rs =>
      match hexVal h1, hexVal h2, hexVal h3, hexVal h4 with
      | some a, some b, some c, some d =>
        let n := ((a * 16 + b) * 16 + c) * 16 + d
        if n < 55296 ∨ 57344 ≤ n then
          (parseStringRest rs).map (fun p => (Char.ofNat n :: p.1, p.2))
        else none
      | _, _, _, _ => none
    | _ => none
  | c :: rest =>
    if c.toNat < 32 then none
    else (parseStringRest rest).map (fun p => (c :: p.1, p.2))

def takeDigits : List Char → List Char × List Char
  | c :: cs =>
    if c.isDigit then
      let (d, r) := takeDigits cs
      (c :: d, r)
    else ([], c :: cs)
  | [] => ([], [])

def parseExpPart (lex : List Char) (cs : List Char) : Option (List Char × List Char) :=
  match cs with
  | c :: r =>
    if c = 'e' ∨ c = 'E' then
      match r with
      | s :: r2 =>
        if s = '+' ∨ s = '-' then
          match takeDigits r2 with
          | ([], _) => none
          | (d, r3) => some (lex ++ c :: s :: d, r3)
        else
          match takeDigits r with
          | ([], _) => none
          | (d, r3) => some (lex ++ c :: d, r3)
      | [] => none
    else some (lex, cs)
  | [] => some (lex, [])

def parseFracExp (lex : List Char) (cs : List Char) : Option (List Char × List Char) :=
  match cs with
  | '.' :: r =>
    match takeDigits r with
    | ([], _) => none
    | (d, r2) => parseExpPart (lex ++ '.' :: d) r2
  | _ => parseExpPart lex cs

def parseNumber (cs : List Char) : Option (List Char × List Char) :=
  let (neg, cs1) :=
    match cs with
    | '-' :: r => (['-'], r)
    | _ => (([] : List Char), cs)
  match cs1 with
  | '0' :: r => parseFracExp (neg ++ ['0']) r
  | c :: r =>
    if c.isDigit then
      let (d, r2) := takeDigits r
      parseFracExp (neg ++ c :: d) r2
    else none
  | [] => none

inductive PMode where
  | val
  | arrElems (acc : List Json)
  | objElems (acc : List (String × Json))

def parseStep : Nat → PMode → List Char → Option (Json × List Char)
  | 0, _, _ => none
  | fuel + 1, .val, cs =>
    match skipWs cs with
    | [] => none
    | c :: rest =>
      if c = '\x7b' then
        match skipWs rest with
        | '\x7d' :: r2 => some (.obj [], r2)
        | _ => parseStep fuel (.objElems []) rest
      else if c = '[' then
        match skipWs rest with
        | ']' :: r2 => some (.arr [], r2)
        | _ => parseStep fuel (.arrElems []) rest
      else if c = '"' then
        (parseStringRest rest).map (fun p => (.str (String.mk p.1), p.2))
      else if c = 't' then
        match rest with
        | 'r' :: 'u' :: 'e' :: r2 => some (.bool true, r2)
        | _ => none
      else if c = 'f' then
        match rest with
        | 'a' :: 'l' :: 's' :: 'e' :: r2 => some (.bool false, r2)
        | _ => none
      else if c = 'n' then
        match rest with
        | 'u' :: 'l' :: 'l' :: r2 => some (.null, r2)
        | _ => none
      else (parseNumber (c :: rest)).map (fun p => (.num (String.mk p.1), p.2))
  | fuel + 1, .arrElems acc, cs =>
    match parseStep fuel .val cs with
    | none => none
    | some (v, rest) =>
      match skipWs rest with
      | ',' :: r2 => parseStep fuel (.arrElems (acc ++ [v])) r2
      | ']' :: r2 => some (.arr (acc ++ [v]), r2)
      | _ => none
  | fuel + 1, .objElems acc, cs =>
    match skipWs cs with
    | '"' :: rest =>
      match parseStringRest rest with
      | none => none
      | some (k, r2) =>
        match skipWs r2 with
        | ':' :: r3 =>
          match parseStep fuel .val r3 with
          | none => none
          | some (v, r4) =>
            match skipWs r4 with
            | ',' :: r5 => parseStep fuel (.objElems (acc ++ [(String.mk k, v)])) r5
            | '\x7d' :: r5 => some (.obj (acc ++ [(String.mk k, v)]), r5)
            | _ => none
        | _ => none
    | _ => none

/-- `serde_json::from_str::<serde_json::Value>(trimmed)`: the whole input
must be one JSON document (surrounding whitespace permitted). -/
def jsonParse (s : String) : Option Json :=
  match parseStep (s.data.length + 2) .val s.data with
  | some (v, rest) => if skipWs rest = [] then some v else none
  | none => none

/-! ## Stream framer and streaming engine (call_ollama_generate_stream, lines 102-184) -/

inductive Chunk where
  | bytes : String → Chunk   -- res.chunk() yielded Ok(Some(bytes))
  | err : String → Chunk     -- res.chunk() yielded Err(e)

inductive Event where
  | token : String → Event   -- window.emit(event_name, json!(token))
  | done : String → Event    -- window.emit(event_name, json!(done, full))
deriving DecidableEq

/-- Split a character buffer at every newline: the result is the complete
lines followed by the remainder after the last newline (so the list is
never empty, mirroring the `buffer.find('\n')` / `buffer.drain(..=pos)`
loop of lines 137-139). -/
def splitNl : List Char → List (List Char)
  | [] => [[]]
  | c :: cs =>
    if c = '\n' then [] :: splitNl cs
    else
      match splitNl cs with
      | [] => [[c]]
      | l :: ls => (c :: l) :: ls

/-- `str::trim()` on a line: strip whitespace from both ends. -/
def trimChars (cs : List Char) : List Char :=
  (skipWs (skipWs cs.reverse).reverse)

inductive LineOut where
  | returned : String → LineOut  -- the loop returned Ok(full)
  | cont : String → LineOut      -- keep consuming, with the updated full text

/-- One complete line (lines 140-153): trim; skip empty; skip lines that
fail to parse; append a non-empty `response` token to `full` and emit it;
on `done == true` emit the terminal event and return. The third component
records whether the done branch returned. -/
def processLine1 (full : String) (line : List Char) : List Event × String × Bool :=
  if (trimChars line).isEmpty then ([], full, false)
  else
    match jsonParse (String.mk (trimChars line)) with
    | none => ([], full, false)
    | some v =>
      let (evs, full2) :=
        match (v.index "response").asStr with
        | some tok => if tok.isEmpty then ([], full) else ([Event.token tok], full ++ tok)
        | none => ([], full)
      if (v.index "done").asBool = some true then (evs ++ [Event.done full2], full2, true)
      else (evs, full2, false)

/-- The drain loop over the complete lines found in the buffer. -/
def processLines (full : String) : List (List Char) → List Event × LineOut
  | [] => ([], .cont full)
  | line :: rest =>
    match processLine1 full line with
    | (evs, full2, true) => (evs, .returned full2)
    | (evs, full2, false) =>
      let (evs2, out) := processLines full2 rest
      (evs ++ evs2, out)

inductive ChunkEnd where
  | finished : String → ChunkEnd  -- the attempt returned Ok(text)
  | chunkErr : String → ChunkEnd  -- res.chunk() failed: break to retry
deriving DecidableEq

/-- The chunk loop (lines 132-167): append each chunk to the line buffer,
process every complete line, and on end-of-stream (`Ok(None)`) emit the
terminal event with the accumulated text and finish successfully. -/
def runChunks (full : String) (buf : List Char) : List Chunk → List Event × ChunkEnd
  | [] => ([Event.done full], .finished full)
  | Chunk.err e :: _ => ([], .chunkErr e)
  | Chunk.bytes s :: rest =>
    let parts := splitNl (buf ++ s.data)
    match processLines full parts.dropLast with
    | (evs, .returned r) => (evs, .finished r)
    | (evs, .cont full2) =>
      let (evs2, e) := runChunks full2 (parts.getLastD []) rest
      (evs ++ evs2, e)

/-- One streaming attempt: the send result, carrying the HTTP status and
the chunk sequence when a response arrives. -/
inductive StreamAttempt where
  | sendErr : String → StreamAttempt
  | resp : Status → List Chunk → StreamAttempt

inductive StreamAttemptRes where
  | success : List Event → String → StreamAttemptRes
  | failRetryable : List Event → String → StreamAttemptRes

/-- One attempt of the streaming loop (lines 123-176): a failed send is
retryable as `ストリーミング送信失敗: e`; a non-2xx status is retryable as
`ステータスエラー: st` without reading the body; otherwise the framer runs
with a fresh buffer and accumulator, and a mid-stream read error is
retryable as `ストリーム読み取り失敗: e` keeping the events already emitted. -/
def streamAttemptRun : StreamAttempt → StreamAttemptRes
  | .sendErr e => .failRetryable [] ("ストリーミング送信失敗: " ++ e)
  | .resp st chunks =>
    if statusIsSuccess st then
      match runChunks "" [] chunks with
      | (evs, .finished r) => .success evs r
      | (evs, .chunkErr e) => .failRetryable evs ("ストリーム読み取り失敗: " ++ e)
    else .failRetryable [] ("ステータスエラー: " ++ st.display)

structure StreamTrace where
  attempts : Nat
  backoffs : List Nat
  events : List Event
  outcome : BufOutcome
deriving DecidableEq

/-- The streaming retry loop (lines 114-183), same shape as `bufGo`:
`rem = MAX_RETRIES - a` and the code's `attempt >= MAX_RETRIES` is `rem = 0`. -/
def streamGo (backend : Nat → StreamAttempt) (a : Nat) : Nat → StreamTrace
  | 0 =>
    match streamAttemptRun (backend a) with
    | .success evs r => ⟨a, [], evs, .success r⟩
    | .failRetryable evs m => ⟨a, [], evs, .failure m⟩
  | rem + 1 =>
    match streamAttemptRun (backend a) with
    | .success evs r => ⟨a, [], evs, .success r⟩
    | .failRetryable evs _ =>
      let t := streamGo backend (a + 1) rem
      ⟨t.attempts, backoffMs a :: t.backoffs, evs ++ t.events, t.outcome⟩

/-- `call_ollama_generate_stream` instrumented. -/
def call_ollama_generate_stream (backend : Nat → StreamAttempt) (maxRetries : Nat) : StreamTrace :=
  streamGo backend 1 (maxRetries - 1)

structure StreamGatewayOut where
  netCalls : Nat
  events : List Event
  result : BufOutcome
deriving DecidableEq

/-- `generate_ai_response_stream` (line 404): model guard, then the
streaming engine with `MAX_RETRIES = 3`. -/
def generate_ai_response_stream (backend : Nat → StreamAttempt) (model : String) : StreamGatewayOut :=
  if is_allowed_model model then
    let t := call_ollama_generate_stream backend MAX_RETRIES
    ⟨t.attempts, t.events, t.outcome⟩
  else ⟨0, [], .failure ERR_UNSUPPORTED_MODEL⟩

/-! ## Cancellation-aware retry state machine (spec sections 4.2 and 4.5) -/

/-- Modelled from the spec: the repository source under src/ contains no
cancellation broadcaster — the cited backoff waits are plain sleeps.  This
is the retry/backoff state machine of spec section 4.5 with cooperative
cancellation: states `Attempting`, `Backoff`, `Success`, `Cancelled`,
`ExhaustedFailure`; the backoff delay is waited in small slices, each slice
re-checking cancellation non-blocking. -/
inductive EngineState where
  | attempting : Nat → EngineState            -- attempt counter, 1-indexed
  | backoff : Nat → Nat → EngineState         -- attempt counter, slices left
  | success : String → EngineState
  | cancelled : EngineState
  | exhausted : String → EngineState
deriving DecidableEq

/-- Modelled from the spec: the per-call environment of the section 4.5
machine — the attempt ceiling, the number of polling slices making up each
backoff delay, and the outcome each transport attempt would produce. -/
structure EngineEnv where
  maxRetries : Nat
  slicesFor : Nat → Nat
  attemptResult : Nat → Except String String

/-- Modelled from the spec: one transition of the section 4.5 machine.
`cancelObserved` is the non-blocking cancellation poll made at the start of
every attempt and at every backoff slice; terminal states are absorbing. -/
def engineStep (env : EngineEnv) (cancelObserved : Bool) : EngineState → EngineState
  | .attempting a =>
    if cancelObserved then .cancelled
    else
      match env.attemptResult a with
      | .ok t => .success t
      | .error e =>
        if env.maxRetries ≤ a then .exhausted e
        else .backoff a (env.slicesFor a)
  | .backoff a s =>
    if cancelObserved then .cancelled
    else
      match s with
      | 0 => .attempting (a + 1)
      | s2 + 1 => .backoff a s2
  | .success t => .success t
  | .cancelled => .cancelled
  | .exhausted e => .exhausted e

/-- Modelled from the spec: running the machine over a sequence of
cancellation-poll results, one per step. -/
def engineRun (env : EngineEnv) (cancels : List Bool) (st : EngineState) : EngineState :=
  cancels.foldl (fun s c => engineStep env c s) st

/-! ## mask_prompt_for_log (main.rs lines 28-43)

A prompt is modelled as its list of characters; `Char.utf8Size` gives each
character's UTF-8 byte width, so `byteLen` is Rust's `str::len()` and
`isCharBoundary` is `str::is_char_boundary`. -/

def byteLen (s : List Char) : Nat := (s.map Char.utf8Size).sum

def isCharBoundary (s : List Char) : Nat → Bool
  | 0 => true
  | i + 1 =>
    match s with
    | [] => false
    | c :: cs => if c.utf8Size ≤ i + 1 then isCharBoundary cs (i + 1 - c.utf8Size) else false

/-- The boundary search of lines 33-36: starting at the given index,
decrement until `is_char_boundary` holds (index 0 always qualifies). -/
def findBoundary (s : List Char) : Nat → Nat
  | 0 => 0
  | i + 1 => if isCharBoundary s (i + 1) then i + 1 else findBoundary s i

/-- The character prefix of byte length at most `b` — the content of the
slice `&prompt[..boundary]` when `b` is a character boundary. -/
def takeBytes : List Char → Nat → List Char
  | [], _ => []
  | c :: cs, b => if c.utf8Size ≤ b then c :: takeBytes cs (b - c.utf8Size) else []

def PROMPT_MASK_PLACEHOLDER : String := "[プロンプトが表示できません]"

/-- `fn mask_prompt_for_log(prompt: &str) -> String` (lines 28-43). -/
def mask_prompt_for_log (s : List Char) : String :=
  if byteLen s ≤ 100 then String.mk s
  else
    let b := findBoundary s 50
    if b = 0 then PROMPT_MASK_PLACEHOLDER
    else
      String.mk (takeBytes s b) ++ "...[" ++
        toString (s.length - (takeBytes s b).length) ++ "文字省略]"

/-! ## Helper lemmas -/

theorem str_append_empty (s : String) : s ++ "" = s := by
  rcases s with ⟨l⟩
  show String.mk (l ++ []) = String.mk l
  simp

theorem str_empty_append (s : String) : "" ++ s = s := by
  rcases s with ⟨l⟩
  rfl

theorem str_append_assoc (a b c : String) : a ++ b ++ c = a ++ (b ++ c) := by
  rcases a with ⟨x⟩; rcases b with ⟨y⟩; rcases c with ⟨z⟩
  show String.mk (x ++ y ++ z) = String.mk (x ++ (y ++ z))
  simp

/-- Concatenation of a list of strings, in order. -/
def sjoin : List String → String
  | [] => ""
  | s :: rest => s ++ sjoin rest

theorem sjoin_append (a b : List String) : sjoin (a ++ b) = sjoin a ++ sjoin b := by
  induction a with
  | nil => simp [sjoin, str_empty_append]
  | cons x xs ih => simp [sjoin, ih, str_append_assoc]

set_option maxRecDepth 8000

/-! ## Engine step lemmas -/

theorem bufGo_first_success (backend : Nat → BufResp) (a rem : Nat) (s : String)
    (h : classifyBuf (backend a) = .success s) :
    bufGo backend a rem = ⟨a, [], .success s⟩ := by
  cases rem <;> simp [bufGo, h]

theorem bufGo_first_fatal (backend : Nat → BufResp) (a rem : Nat) (m : String)
    (h : classifyBuf (backend a) = .fatal m) :
    bufGo backend a rem = ⟨a, [], .failure m⟩ := by
  cases rem <;> simp [bufGo, h]

theorem bufGo_step_retry (backend : Nat → BufResp) (a rem : Nat) (m : String)
    (h : classifyBuf (backend a) = .retryable m) :
    bufGo backend a (rem + 1) =
      ⟨(bufGo backend (a + 1) rem).attempts,
        backoffMs a :: (bufGo backend (a + 1) rem).backoffs,
        (bufGo backend (a + 1) rem).outcome⟩ := by
  simp [bufGo, h]

theorem bufGo_attempts_ge (backend : Nat → BufResp) :
    ∀ (rem a : Nat), a ≤ (bufGo backend a rem).attempts := by
  intro rem
  induction rem with
  | zero => intro a; cases h : classifyBuf (backend a) <;> simp [bufGo, h]
  | succ n ih =>
    intro a
    cases h : classifyBuf (backend a) with
    | success s => simp [bufGo, h]
    | fatal m => simp [bufGo, h]
    | retryable m =>
      rw [bufGo_step_retry backend a n m h]
      exact le_trans (Nat.le_succ a) (ih (a + 1))

/-- For a backend failing every attempt with a transport error: the trace
from attempt `a` with `rem` retries left runs attempts `a .. a+rem`, backs
off after each failed attempt except the last, and carries the final
attempt's error message. -/
theorem bufGo_transport (m : Nat → String) : ∀ (rem a : Nat),
    bufGo (fun k => BufResp.transportErr (m k)) a rem =
      ⟨a + rem, (List.range' a rem).map backoffMs,
        .failure ("リクエスト失敗: " ++ m (a + rem))⟩ := by
  intro rem
  induction rem with
  | zero => intro a; simp [bufGo, classifyBuf, List.range']
  | succ n ih =>
    intro a
    rw [bufGo_step_retry (fun k => BufResp.transportErr (m k)) a n
        ("リクエスト失敗: " ++ m a) rfl, ih (a + 1)]
    have h1 : a + 1 + n = a + (n + 1) := by omega
    simp [List.range', h1]

/-- C1 (amended to transport failures): for an attempt ceiling `N ≥ 1` and
a backend whose every attempt fails with a transport error (attempt `k`
carrying message `m k`), the buffered call performs exactly `N` attempts
and `N - 1` backoff waits, the wait after the k-th failed attempt being
`300 saturating-times 2^(k-1)` (which equals `300 * 2^(k-1)` whenever
`k ≤ 56`), and terminates as a failure carrying the last error's message. -/
theorem retry_exhaustion_transport (m : Nat → String) (N : Nat) (hN : 1 ≤ N) :
    call_ollama_generate_with_timeout (fun k => BufResp.transportErr (m k)) N =
      ⟨N, (List.range' 1 (N - 1)).map backoffMs, .failure ("リクエスト失敗: " ++ m N)⟩
    ∧ ((List.range' 1 (N - 1)).map backoffMs).length = N - 1
    ∧ (∀ k, 1 ≤ k → k ≤ 56 → backoffMs k = 300 * 2 ^ (k - 1)) := by
  refine ⟨?_, by simp, ?_⟩
  · rw [call_ollama_generate_with_timeout, bufGo_transport m (N - 1) 1]
    have h1 : 1 + (N - 1) = N := by omega
    rw [h1]
  · intro k hk1 hk2
    have h2 : (2 : Nat) ^ (k - 1) ≤ 2 ^ 55 := Nat.pow_le_pow_right (by norm_num) (by omega)
    have hU : (2 : Nat) ^ 55 ≤ U64_MAX := by norm_num [U64_MAX]
    rw [backoffMs, satPow2, satMul, min_eq_left (le_trans h2 hU), min_eq_left ?_]
    calc 300 * 2 ^ (k - 1) ≤ 300 * 2 ^ 55 := Nat.mul_le_mul_left 300 h2
      _ ≤ U64_MAX := by norm_num [U64_MAX]

/-- Witness for C1: a backend refusing the connection on all three attempts,
with the default ceiling `MAX_RETRIES = 3`. -/
theorem retry_exhaustion_transport_witness :
    call_ollama_generate_with_timeout (fun _ => BufResp.transportErr "connection refused") 3 =
      ⟨3, [300, 600], .failure "リクエスト失敗: connection refused"⟩ := by
  have h := (retry_exhaustion_transport (fun _ => "connection refused") 3 (by norm_num)).1
  rw [h]; decide

/-- Counterexample to C1 as stated: a backend that fails every attempt —
here with a body that is not valid JSON — yields only ONE attempt with
ceiling 3, because the body-parse failure propagates immediately through
`?` instead of being retried. -/
theorem retry_exhaustion_counterexample :
    call_ollama_generate_with_timeout
        (fun _ => BufResp.ok ⟨200, "200 OK"⟩ (.parseFail "expected value at line 1 column 1")) 3 =
      ⟨1, [], .failure "JSONパース失敗: expected value at line 1 column 1"⟩
    ∧ (1 : Nat) ≠ 3 :=
  ⟨rfl, by decide⟩

/-- C3 (amended): in buffered mode only a body that PARSES but lacks the
string field "response" is retryable like a transport error — below the
ceiling the engine backs off (the first backoff being 300ms) and performs a
further attempt; a body that fails to parse as JSON is NOT retried: it
fails the call immediately with the parse-error message, regardless of the
remaining attempt budget. -/
theorem malformed_response_retry_amended :
    (∀ (backend : Nat → BufResp) (N : Nat) (st : Status) (j : Json),
      2 ≤ N → (Json.index j "response").asStr = none →
      backend 1 = BufResp.ok st (.parsed j) →
      2 ≤ (call_ollama_generate_with_timeout backend N).attempts ∧
      (call_ollama_generate_with_timeout backend N).backoffs.head? = some 300)
    ∧ (∀ (backend : Nat → BufResp) (N : Nat) (st : Status) (e : String),
      backend 1 = BufResp.ok st (.parseFail e) →
      call_ollama_generate_with_timeout backend N =
        ⟨1, [], .failure ("JSONパース失敗: " ++ e)⟩) := by
  constructor
  · intro backend N st j hN hj hb
    obtain ⟨rem, hrem⟩ : ∃ rem, N - 1 = rem + 1 := ⟨N - 2, by omega⟩
    have hc : classifyBuf (backend 1) = .retryable "応答なし" := by
      rw [hb]; simp [classifyBuf, hj]
    rw [call_ollama_generate_with_timeout, hrem, bufGo_step_retry backend 1 rem _ hc]
    constructor
    · exact bufGo_attempts_ge backend rem 2
    · simp
      decide
  · intro backend N st e hb
    have hc : classifyBuf (backend 1) = .fatal ("JSONパース失敗: " ++ e) := by
      rw [hb]; rfl
    exact bufGo_first_fatal backend 1 (N - 1) _ hc

/-- Counterexample to C3 as stated: with ceiling 5 and the attempt counter
at 1 (well below the ceiling), a response body that fails to parse as JSON
does NOT back off and retry — the call fails immediately after a single
attempt with the parse-error message. -/
theorem malformed_response_retry_counterexample :
    call_ollama_generate_with_timeout
        (fun _ => BufResp.ok ⟨200, "200 OK"⟩ (.parseFail "invalid type")) 5 =
      ⟨1, [], .failure "JSONパース失敗: invalid type"⟩
    ∧ (1 : Nat) < 5 :=
  ⟨rfl, by decide⟩

/-- Witness for C3 (amended): a parsed body with no "response" field is
retried (second attempt reached, 300ms backoff), and a parse failure kills
the call at attempt 1. -/
theorem malformed_response_retry_witness :
    (2 ≤ (call_ollama_generate_with_timeout
        (fun _ => BufResp.ok ⟨200, "200 OK"⟩ (.parsed (Json.obj []))) 3).attempts
      ∧ (call_ollama_generate_with_timeout
        (fun _ => BufResp.ok ⟨200, "200 OK"⟩ (.parsed (Json.obj []))) 3).backoffs.head? = some 300)
    ∧ call_ollama_generate_with_timeout
        (fun _ => BufResp.ok ⟨200, "200 OK"⟩ (.parseFail "bad")) 3 =
      ⟨1, [], .failure "JSONパース失敗: bad"⟩ :=
  ⟨malformed_response_retry_amended.1 _ 3 ⟨200, "200 OK"⟩ (Json.obj []) (by decide) rfl rfl,
    malformed_response_retry_amended.2 _ 3 ⟨200, "200 OK"⟩ "bad" rfl⟩

/-- C6: every gateway operation that accepts a model identifier rejects a
model failing the allow-list check immediately with the canonical
unsupported-model message and a network-call count of zero.  (The
operations `generate_text` and `start_discussion` accept no model
identifier; they always use the allow-listed default "gemma3:4b".) -/
theorem policy_guard_rejects_before_network
    (model : String) (backend : Nat → BufResp) (sbk : Nat → StreamAttempt)
    (h : is_allowed_model model = false) :
    generate_text_with_model backend model = ⟨0, .failure ERR_UNSUPPORTED_MODEL⟩ ∧
    generate_ai_response backend model = ⟨0, .failure ERR_UNSUPPORTED_MODEL⟩ ∧
    analyze_discussion_points backend model = ⟨0, .failure ERR_UNSUPPORTED_MODEL⟩ ∧
    analyze_recent_discussion backend model = ⟨0, .failure ERR_UNSUPPORTED_MODEL⟩ ∧
    summarize_discussion backend model = ⟨0, .failure ERR_UNSUPPORTED_MODEL⟩ ∧
    generate_ai_response_stream sbk model = ⟨0, [], .failure ERR_UNSUPPORTED_MODEL⟩ ∧
    is_allowed_model "gemma3:4b" = true := by
  simp [generate_text_with_model, generate_ai_response, analyze_discussion_points,
    analyze_recent_discussion, summarize_discussion, generate_ai_response_stream, h]
  decide

/-- Witness for C6 at the concrete disallowed model "llama3:8b". -/
theorem policy_guard_rejects_witness :
    is_allowed_model "llama3:8b" = false ∧
    generate_text_with_model (fun _ => BufResp.transportErr "x") "llama3:8b" =
      ⟨0, .failure ERR_UNSUPPORTED_MODEL⟩ ∧
    generate_ai_response_stream (fun _ => StreamAttempt.sendErr "x") "llama3:8b" =
      ⟨0, [], .failure ERR_UNSUPPORTED_MODEL⟩ :=
  ⟨by decide,
    (policy_guard_rejects_before_network "llama3:8b" (fun _ => BufResp.transportErr "x")
      (fun _ => StreamAttempt.sendErr "x") (by decide)).1,
    (policy_guard_rejects_before_network "llama3:8b" (fun _ => BufResp.transportErr "x")
      (fun _ => StreamAttempt.sendErr "x") (by decide)).2.2.2.2.2.1⟩

/-- Characterisation of prefix testing used by C7. -/
theorem strPrefix_iff (p m : String) :
    p.data.isPrefixOf m.data = true ↔ ∃ s : String, m = p ++ s := by
  rw [List.isPrefixOf_iff_prefix]
  constructor
  · rintro ⟨t, ht⟩
    refine ⟨⟨t⟩, ?_⟩
    rcases m with ⟨md⟩; rcases p with ⟨pd⟩
    show String.mk md = String.mk (pd ++ t)
    simp only at ht
    rw [ht]
  · rintro ⟨s, rfl⟩
    exact ⟨s.data, rfl⟩

/-- C7: `is_allowed_model` is a pure boolean function returning true
exactly when the model string extends one of the two configured prefixes
"gemma3:1b" and "gemma3:4b" (case-sensitive, no wildcards); both allow-list
members themselves are accepted, extensions are accepted, and strings
differing in case or not extending a prefix are rejected. -/
theorem is_allowed_model_characterisation :
    (∀ m : String, is_allowed_model m = true ↔
      ((∃ s, m = "gemma3:1b" ++ s) ∨ (∃ s, m = "gemma3:4b" ++ s)))
    ∧ is_allowed_model "gemma3:1b" = true
    ∧ is_allowed_model "gemma3:4b" = true
    ∧ is_allowed_model "gemma3:1b-it-q4" = true
    ∧ is_allowed_model "Gemma3:1b" = false
    ∧ is_allowed_model "GEMMA3:4B" = false
    ∧ is_allowed_model "gemma3" = false
    ∧ is_allowed_model "gemma3:12b" = false
    ∧ is_allowed_model "" = false := by
  refine ⟨?_, by decide, by decide, by decide, by decide, by decide, by decide, by decide, by decide⟩
  intro m
  have expand : is_allowed_model m =
      ("gemma3:1b".data.isPrefixOf m.data || "gemma3:4b".data.isPrefixOf m.data) := by
    simp [is_allowed_model, ALLOWED_MODEL_PREFIXES]
  rw [expand, Bool.or_eq_true, strPrefix_iff, strPrefix_iff]

theorem streamGo_first_success (backend : Nat → StreamAttempt) (a rem : Nat)
    (evs : List Event) (r : String)
    (h : streamAttemptRun (backend a) = .success evs r) :
    streamGo backend a rem = ⟨a, [], evs, .success r⟩ := by
  cases rem <;> simp [streamGo, h]

theorem streamGo_step_retry (backend : Nat → StreamAttempt) (a rem : Nat)
    (evs : List Event) (m : String)
    (h : streamAttemptRun (backend a) = .failRetryable evs m) :
    streamGo backend a (rem + 1) =
      ⟨(streamGo backend (a + 1) rem).attempts,
        backoffMs a :: (streamGo backend (a + 1) rem).backoffs,
        evs ++ (streamGo backend (a + 1) rem).events,
        (streamGo backend (a + 1) rem).outcome⟩ := by
  simp [streamGo, h]

/-- A streaming backend whose every attempt fails retryably exhausts all
attempts, accumulating the per-attempt events and backing off after every
failed attempt except the last. -/
theorem streamGo_allfail (backend : Nat → StreamAttempt)
    (evs : Nat → List Event) (msg : Nat → String)
    (h : ∀ a, streamAttemptRun (backend a) = .failRetryable (evs a) (msg a)) :
    ∀ (rem a : Nat),
    streamGo backend a rem =
      ⟨a + rem, (List.range' a rem).map backoffMs,
        ((List.range' a (rem + 1)).map evs).flatten, .failure (msg (a + rem))⟩ := by
  intro rem
  induction rem with
  | zero =>
    intro a
    simp [streamGo, h a, List.range']
  | succ n ih =>
    intro a
    rw [streamGo_step_retry backend a n (evs a) (msg a) (h a), ih (a + 1)]
    have h1 : a + 1 + n = a + (n + 1) := by omega
    simp [List.range', h1]

/-- C8: buffered mode never inspects the HTTP status — classification of a
received response is independent of its status, and a body carrying a
string "response" field succeeds on the first attempt for ANY status
(including 500); in streaming mode, by contrast, a non-2xx status is a
retryable failure: with ceiling 3 an always-non-2xx backend performs all 3
attempts and 2 backoffs and fails with the status message, without reading
any body. -/
theorem status_buffered_ignored_streaming_checked :
    (∀ (st st2 : Status) (b : BodyKind), classifyBuf (.ok st b) = classifyBuf (.ok st2 b))
    ∧ (∀ (N : Nat) (st : Status) (j : Json) (s : String),
        (Json.index j "response").asStr = some s →
        call_ollama_generate_with_timeout (fun _ => BufResp.ok st (.parsed j)) N =
          ⟨1, [], .success s⟩)
    ∧ (∀ (st : Status) (chunks : List Chunk),
        statusIsSuccess st = false →
        call_ollama_generate_stream (fun _ => StreamAttempt.resp st chunks) 3 =
          ⟨3, [300, 600], [], .failure ("ステータスエラー: " ++ st.display)⟩) := by
  refine ⟨?_, ?_, ?_⟩
  · intro st st2 b
    cases b <;> rfl
  · intro N st j s hj
    refine bufGo_first_success _ 1 (N - 1) s ?_
    simp [classifyBuf, hj]
  · intro st chunks h
    have hall : ∀ a, streamAttemptRun ((fun _ : Nat => StreamAttempt.resp st chunks) a) =
        .failRetryable ((fun _ : Nat => ([] : List Event)) a)
          ((fun _ : Nat => "ステータスエラー: " ++ st.display) a) := by
      intro a
      simp [streamAttemptRun, h]
    rw [call_ollama_generate_stream,
      show (3 : Nat) - 1 = 2 from rfl,
      streamGo_allfail _ _ _ hall 2 1]
    rfl

/-- Witness for C8: a 500 response with a well-formed body succeeds in
buffered mode; an always-500 streaming backend retries to exhaustion. -/
theorem status_buffered_ignored_streaming_checked_witness :
    call_ollama_generate_with_timeout
        (fun _ => BufResp.ok ⟨500, "500 Internal Server Error"⟩
          (.parsed (Json.obj [("response", Json.str "ok")]))) 3 =
      ⟨1, [], .success "ok"⟩
    ∧ call_ollama_generate_stream
        (fun _ => StreamAttempt.resp ⟨500, "500 Internal Server Error"⟩
          [Chunk.bytes "\x7b\"response\":\"A\"\x7d\n"]) 3 =
      ⟨3, [300, 600], [], .failure "ステータスエラー: 500 Internal Server Error"⟩ := by
  constructor
  · exact status_buffered_ignored_streaming_checked.2.1 3
      ⟨500, "500 Internal Server Error"⟩ (Json.obj [("response", Json.str "ok")]) "ok" rfl
  · have h := status_buffered_ignored_streaming_checked.2.2
      ⟨500, "500 Internal Server Error"⟩ [Chunk.bytes "\x7b\"response\":\"A\"\x7d\n"] (by decide)
    rw [h]; rfl

/-! ## Stream framer invariants -/

/-- One line either leaves the loop running or returns; either way the
events it emits are the tokens it appended to `full`, in order, with the
terminal event added exactly when the done flag was seen. -/
theorem processLine1_spec (full : String) (line : List Char) :
    ∃ toks : List String,
      (processLine1 full line = (toks.map Event.token, full ++ sjoin toks, false)) ∨
      (processLine1 full line =
        (toks.map Event.token ++ [Event.done (full ++ sjoin toks)], full ++ sjoin toks, true)) := by
  unfold processLine1
  split
  · exact ⟨[], Or.inl (by simp [sjoin, str_append_empty])⟩
  · rcases hp : jsonParse (String.mk (trimChars line)) with _ | v
    · exact ⟨[], Or.inl (by simp [sjoin, str_append_empty])⟩
    · rcases hresp : (v.index "response").asStr with _ | tok
      · by_cases hdone : (v.index "done").asBool = some true
        · exact ⟨[], Or.inr (by simp [hresp, hdone, sjoin, str_append_empty])⟩
        · exact ⟨[], Or.inl (by simp [hresp, hdone, sjoin, str_append_empty])⟩
      · by_cases hemp : tok.isEmpty
        · by_cases hdone : (v.index "done").asBool = some true
          · exact ⟨[], Or.inr (by simp [hresp, hemp, hdone, sjoin, str_append_empty])⟩
          · exact ⟨[], Or.inl (by simp [hresp, hemp, hdone, sjoin, str_append_empty])⟩
        · by_cases hdone : (v.index "done").asBool = some true
          · exact ⟨[tok], Or.inr (by simp [hresp, hemp, hdone, sjoin, str_append_empty])⟩
          · exact ⟨[tok], Or.inl (by simp [hresp, hemp, hdone, sjoin, str_append_empty])⟩

/-- The drain loop over a list of complete lines: emitted events are the
emitted tokens in order, with the terminal event last exactly when some
line carried the done flag, and the final full text is the initial full
text extended by the emitted tokens. -/
theorem processLines_spec : ∀ (lines : List (List Char)) (full : String),
    ∃ toks : List String,
      (processLines full lines = (toks.map Event.token, .cont (full ++ sjoin toks))) ∨
      (processLines full lines =
        (toks.map Event.token ++ [Event.done (full ++ sjoin toks)],
          .returned (full ++ sjoin toks))) := by
  intro lines
  induction lines with
  | nil =>
    intro full
    exact ⟨[], Or.inl (by simp [processLines, sjoin, str_append_empty])⟩
  | cons line rest ih =>
    intro full
    obtain ⟨t1, h1 | h1⟩ := processLine1_spec full line
    · obtain ⟨t2, h2 | h2⟩ := ih (full ++ sjoin t1)
      · refine ⟨t1 ++ t2, Or.inl ?_⟩
        simp [processLines, h1, h2, sjoin_append, str_append_assoc]
      · refine ⟨t1 ++ t2, Or.inr ?_⟩
        simp [processLines, h1, h2, sjoin_append, str_append_assoc]
    · exact ⟨t1, Or.inr (by simp [processLines, h1])⟩

/-- A chunk sequence with no read errors always finishes the attempt: the
emitted events are exactly the token events in order followed by one
terminal event, whose text extends the initial `full` by precisely the
emitted tokens and is the attempt's returned text — whether or not an
explicit done marker was ever seen. -/
theorem runChunks_bytes_spec : ∀ (cs : List String) (full : String) (buf : List Char),
    ∃ toks : List String,
      runChunks full buf (cs.map Chunk.bytes) =
        (toks.map Event.token ++ [Event.done (full ++ sjoin toks)],
          .finished (full ++ sjoin toks)) := by
  intro cs
  induction cs with
  | nil =>
    intro full buf
    exact ⟨[], by simp [runChunks, sjoin, str_append_empty]⟩
  | cons s rest ih =>
    intro full buf
    obtain ⟨t1, h1 | h1⟩ := processLines_spec (splitNl (buf ++ s.data)).dropLast full
    · obtain ⟨t2, h2⟩ := ih (full ++ sjoin t1) ((splitNl (buf ++ s.data)).getLastD [])
      simp only [List.getLastD_eq_getLast?] at h2
      refine ⟨t1 ++ t2, ?_⟩
      simp [runChunks, h1, h2, sjoin_append, str_append_assoc]
    · exact ⟨t1, by simp [runChunks, h1]⟩

/-- Helper: the full streaming call against an error-free byte stream with
a 2xx status succeeds on the first attempt with ordered token events and a
final terminal event carrying the concatenation. -/
theorem stream_engine_bytes (cs : List String) (maxR : Nat) :
    ∃ toks : List String,
      call_ollama_generate_stream
          (fun _ => StreamAttempt.resp ⟨200, "200 OK"⟩ (cs.map Chunk.bytes)) maxR =
        ⟨1, [], toks.map Event.token ++ [Event.done (sjoin toks)], .success (sjoin toks)⟩ := by
  obtain ⟨toks, h⟩ := runChunks_bytes_spec cs "" []
  simp only [str_empty_append] at h
  refine ⟨toks, ?_⟩
  rw [call_ollama_generate_stream]
  refine streamGo_first_success _ 1 (maxR - 1) _ _ ?_
  simp [streamAttemptRun, statusIsSuccess, h]

/-- C4: for every streamed byte sequence (any chunking, any line content),
the successful call emits the token events in order followed by exactly one
terminal event; the concatenation of the emitted token texts equals the
terminal event's full text and equals the string returned as the call's
result, and nothing is emitted after the terminal event. -/
theorem stream_tokens_concat_eq_terminal (cs : List String) :
    ∃ toks : List String,
      call_ollama_generate_stream
          (fun _ => StreamAttempt.resp ⟨200, "200 OK"⟩ (cs.map Chunk.bytes)) 3 =
        ⟨1, [], toks.map Event.token ++ [Event.done (sjoin toks)], .success (sjoin toks)⟩ :=
  stream_engine_bytes cs 3

/-- C5: a byte stream that simply ends — with or without an explicit done
marker — is treated as implicit completion: the call succeeds, the last
emitted event is the terminal event carrying the returned text; in
particular a stream consisting only of one token line followed by
connection close returns "A" as a success after emitting the token and the
terminal event. -/
theorem stream_eos_implicit_completion :
    (∀ cs : List String, ∃ r : String,
      (call_ollama_generate_stream
          (fun _ => StreamAttempt.resp ⟨200, "200 OK"⟩ (cs.map Chunk.bytes)) 3).outcome =
        .success r ∧
      (call_ollama_generate_stream
          (fun _ => StreamAttempt.resp ⟨200, "200 OK"⟩ (cs.map Chunk.bytes)) 3).events.getLast? =
        some (Event.done r))
    ∧ call_ollama_generate_stream
        (fun _ => StreamAttempt.resp ⟨200, "200 OK"⟩ [Chunk.bytes "\x7b\"response\":\"A\"\x7d\n"]) 3 =
      ⟨1, [], [Event.token "A", Event.done "A"], .success "A"⟩ := by
  constructor
  · intro cs
    obtain ⟨toks, h⟩ := stream_engine_bytes cs 3
    refine ⟨sjoin toks, ?_, ?_⟩
    · rw [h]
    · rw [h]
      exact List.getLast?_concat _
  · decide

/-- C9: the streaming accumulator and line buffer are re-created at the
start of each attempt.  If attempt 1 emits some events and then dies on a
read error, and attempt 2 streams cleanly, then the call succeeds with ONLY
attempt 2's tokens as its result, while the sink has received attempt 1's
events followed by attempt 2's events — so a token emitted in the failed
attempt is not part of the final text but was still delivered to the sink
(possibly duplicating a token text across attempts). -/
theorem stream_retry_resets_accumulator (cs1 cs2 : List String) (e : String)
    (evs1 : List Event)
    (h : runChunks "" [] (cs1.map Chunk.bytes ++ [Chunk.err e]) = (evs1, .chunkErr e)) :
    ∃ toks2 : List String,
      call_ollama_generate_stream
          (fun a => if a = 1 then StreamAttempt.resp ⟨200, "200 OK"⟩ (cs1.map Chunk.bytes ++ [Chunk.err e])
                    else StreamAttempt.resp ⟨200, "200 OK"⟩ (cs2.map Chunk.bytes)) 3 =
        ⟨2, [300], evs1 ++ (toks2.map Event.token ++ [Event.done (sjoin toks2)]),
          .success (sjoin toks2)⟩ := by
  obtain ⟨t2, h2⟩ := runChunks_bytes_spec cs2 "" []
  simp only [str_empty_append] at h2
  refine ⟨t2, ?_⟩
  rw [call_ollama_generate_stream, show (3 : Nat) - 1 = 1 + 1 from rfl]
  have hrun1 : streamAttemptRun
      ((fun a => if a = 1 then StreamAttempt.resp ⟨200, "200 OK"⟩ (cs1.map Chunk.bytes ++ [Chunk.err e])
                 else StreamAttempt.resp ⟨200, "200 OK"⟩ (cs2.map Chunk.bytes)) 1) =
      .failRetryable evs1 ("ストリーム読み取り失敗: " ++ e) := by
    simp [streamAttemptRun, statusIsSuccess, h]
  have hrun2 : streamAttemptRun
      ((fun a => if a = 1 then StreamAttempt.resp ⟨200, "200 OK"⟩ (cs1.map Chunk.bytes ++ [Chunk.err e])
                 else StreamAttempt.resp ⟨200, "200 OK"⟩ (cs2.map Chunk.bytes)) (1 + 1)) =
      .success (t2.map Event.token ++ [Event.done (sjoin t2)]) (sjoin t2) := by
    simp [streamAttemptRun, statusIsSuccess, h2]
  rw [streamGo_step_retry _ 1 1 evs1 _ hrun1,
    streamGo_first_success _ (1 + 1) 1 _ _ hrun2]
  rfl

/-- Witness for C9: attempt 1 emits token "X" then hits a read error;
attempt 2 re-streams the same token and ends.  The sink sees "X" twice, the
result is the single "X" of the successful attempt. -/
theorem stream_retry_resets_accumulator_witness :
    ∃ toks2 : List String,
      call_ollama_generate_stream
          (fun a => if a = 1 then
              StreamAttempt.resp ⟨200, "200 OK"⟩
                (["\x7b\"response\":\"X\"\x7d\n"].map Chunk.bytes ++ [Chunk.err "connection reset"])
            else
              StreamAttempt.resp ⟨200, "200 OK"⟩ (["\x7b\"response\":\"X\"\x7d\n"].map Chunk.bytes)) 3 =
        ⟨2, [300], [Event.token "X"] ++ (toks2.map Event.token ++ [Event.done (sjoin toks2)]),
          .success (sjoin toks2)⟩ :=
  stream_retry_resets_accumulator ["\x7b\"response\":\"X\"\x7d\n"] ["\x7b\"response\":\"X\"\x7d\n"]
    "connection reset" [Event.token "X"] (by decide)

/-- C2 (spec-modelled): in the section 4.5 retry machine, an observed
cancellation is terminal and never retried: a cancellation observed at the
start of an attempt, or at ANY backoff slice (however many slices of the
delay remain), moves the machine to `Cancelled` within that single step —
not after the rest of the delay and not after another attempt — and the
`Cancelled` state is absorbing under every further input sequence, so no
further attempt is ever performed regardless of the remaining attempt
budget. -/
theorem cancellation_terminal_never_retried (env : EngineEnv) (a s : Nat)
    (cancels : List Bool) :
    engineStep env true (.attempting a) = .cancelled
    ∧ engineStep env true (.backoff a s) = .cancelled
    ∧ engineRun env cancels .cancelled = .cancelled := by
  refine ⟨rfl, rfl, ?_⟩
  induction cancels with
  | nil => rfl
  | cons c cs ih =>
    show engineRun env cs (engineStep env c .cancelled) = .cancelled
    exact ih

/-! ## mask_prompt_for_log properties -/

theorem findBoundary_le (s : List Char) : ∀ i, findBoundary s i ≤ i := by
  intro i
  induction i with
  | zero => simp [findBoundary]
  | succ n ih =>
    rw [findBoundary]
    split
    · exact le_refl _
    · exact le_trans ih (Nat.le_succ n)

theorem isCharBoundary_zero (s : List Char) : isCharBoundary s 0 = true := by
  cases s <;> rfl

theorem findBoundary_isBoundary (s : List Char) :
    ∀ i, isCharBoundary s (findBoundary s i) = true := by
  intro i
  induction i with
  | zero => exact isCharBoundary_zero s
  | succ n ih =>
    rw [findBoundary]
    split
    · assumption
    · exact ih

theorem findBoundary_greatest (s : List Char) :
    ∀ i j, j ≤ i → isCharBoundary s j = true → j ≤ findBoundary s i := by
  intro i
  induction i with
  | zero => intro j hj _; omega
  | succ n ih =>
    intro j hj hb
    rw [findBoundary]
    split
    · exact hj
    · rename_i hfalse
      have hne : j ≠ n + 1 := by
        intro hEq
        rw [hEq] at hb
        exact hfalse hb
      exact ih j (by omega) hb

theorem byteLen_cons (c : Char) (l : List Char) :
    byteLen (c :: l) = c.utf8Size + byteLen l := by
  simp [byteLen]

/-- Truncating at a character boundary keeps exactly that many bytes: the
slice `&prompt[..boundary]` is well formed and never cuts a character. -/
theorem takeBytes_byteLen : ∀ (s : List Char) (b : Nat),
    isCharBoundary s b = true → byteLen (takeBytes s b) = b := by
  intro s
  induction s with
  | nil =>
    intro b hb
    cases b with
    | zero => rfl
    | succ n => exact absurd hb (by simp [isCharBoundary])
  | cons c cs ih =>
    intro b hb
    cases b with
    | zero =>
      have : ¬ c.utf8Size ≤ 0 := by
        have := c.utf8Size_pos
        omega
      simp [takeBytes, this, byteLen]
    | succ n =>
      rw [isCharBoundary] at hb
      by_cases hle : c.utf8Size ≤ n + 1
      · rw [if_pos hle] at hb
        rw [takeBytes, if_pos hle, byteLen_cons, ih _ hb]
        omega
      · rw [if_neg hle] at hb
        exact absurd hb (by simp)

/-- C10: `mask_prompt_for_log` is a total function; a prompt of at most 100
bytes is returned unchanged; for a longer prompt the cut index is the
largest character boundary not exceeding byte index 50 (so the slice never
splits a multi-byte character: the kept prefix measures exactly that many
bytes) and the output is the prefix plus the omitted-character suffix; when
no positive boundary exists the fixed placeholder is returned instead. -/
theorem mask_prompt_for_log_safe (s : List Char) :
    (byteLen s ≤ 100 → mask_prompt_for_log s = String.mk s)
    ∧ findBoundary s 50 ≤ 50
    ∧ isCharBoundary s (findBoundary s 50) = true
    ∧ (∀ j, j ≤ 50 → isCharBoundary s j = true → j ≤ findBoundary s 50)
    ∧ (100 < byteLen s → findBoundary s 50 = 0 →
        mask_prompt_for_log s = PROMPT_MASK_PLACEHOLDER)
    ∧ (100 < byteLen s → 0 < findBoundary s 50 →
        byteLen (takeBytes s (findBoundary s 50)) = findBoundary s 50 ∧
        mask_prompt_for_log s =
          String.mk (takeBytes s (findBoundary s 50)) ++ "...[" ++
            toString (s.length - (takeBytes s (findBoundary s 50)).length) ++ "文字省略]") := by
  refine ⟨?_, findBoundary_le s 50, findBoundary_isBoundary s 50,
    fun j hj hb => findBoundary_greatest s 50 j hj hb, ?_, ?_⟩
  · intro h
    simp [mask_prompt_for_log, h]
  · intro h hz
    rw [mask_prompt_for_log, if_neg (by omega)]
    simp [hz]
  · intro h hz
    refine ⟨takeBytes_byteLen s _ (findBoundary_isBoundary s 50), ?_⟩
    rw [mask_prompt_for_log, if_neg (by omega)]
    simp only [Nat.pos_iff_ne_zero] at hz
    simp [hz]

/-- Witness for C10: a 101-byte ASCII prompt is cut at boundary 50 with 51
characters reported omitted, and a short prompt is returned unchanged. -/
theorem mask_prompt_for_log_safe_witness :
    (100 < byteLen (List.replicate 101 'a') ∧ 0 < findBoundary (List.replicate 101 'a') 50)
    ∧ byteLen (takeBytes (List.replicate 101 'a') (findBoundary (List.replicate 101 'a') 50)) =
        findBoundary (List.replicate 101 'a') 50
    ∧ mask_prompt_for_log (List.replicate 101 'a') =
        String.mk (takeBytes (List.replicate 101 'a') (findBoundary (List.replicate 101 'a') 50)) ++
          "...[" ++
          toString ((List.replicate 101 'a').length -
            (takeBytes (List.replicate 101 'a') (findBoundary (List.replicate 101 'a') 50)).length) ++
          "文字省略]"
    ∧ mask_prompt_for_log ['h', 'i'] = String.mk ['h', 'i'] := by
  have h1 := (mask_prompt_for_log_safe (List.replicate 101 'a')).2.2.2.2.2
    (by decide) (by decide)
  have h2 := (mask_prompt_for_log_safe ['h', 'i']).1 (by decide)
  exact ⟨⟨by decide, by decide⟩, h1.1, h1.2, h2⟩
